import Mathlib

/-!
Verification of the settings-resolution engine of `django-settings-object`
(`settings_object/appsettings.py`): the dotted-path import resolver
`import_callable`, the `Setting` descriptor family (`Setting`,
`MergedDictSetting`, `NestedSetting`, `ObjectFactorySetting`) and the
recursive object-factory processor `_process_item`.

Python values are embedded as an inductive `PyVal`; the dynamic-import
primitive and factory invocation are abstract environments (pure functions),
since the repository treats them as external collaborators.  Exceptions are
embedded as an error type `PyErr` carried in `Except`.
-/

namespace SettingsObj

/-! ## String helpers (embedding Python `str` operations used by the source) -/

/-- Python `str.lower` restricted to ASCII, applied characterwise. -/
def strLower (s : String) : String := String.mk (s.data.map Char.toLower)

/-- Python `str.upper` restricted to ASCII, applied characterwise. -/
def strUpper (s : String) : String := String.mk (s.data.map Char.toUpper)

/-- Auxiliary scanner for `splitDot`: `acc` is the current chunk, reversed. -/
def splitDotAux : List Char → List Char → List String
  | [], acc => [String.mk acc.reverse]
  | c :: rest, acc =>
    if c = '.' then String.mk acc.reverse :: splitDotAux rest []
    else splitDotAux rest (c :: acc)

/-- Python `s.split('.')`: always returns at least one chunk; empty chunks
are kept (`"a..b"` gives `["a", "", "b"]`, `""` gives `[""]`). -/
def splitDot (s : String) : List String := splitDotAux s.data []

/-- Python `'.'.join(parts)`. -/
def joinDot : List String → String
  | [] => ""
  | [p] => p
  | p :: rest => p ++ "." ++ joinDot rest

/-- Python `', '.join(parts)`. -/
def joinCommaSpace : List String → String
  | [] => ""
  | [p] => p
  | p :: rest => p ++ ", " ++ joinCommaSpace rest

/-- Substring membership as a proposition (`t` occurs inside `s`). -/
def strContains (s t : String) : Prop := ∃ a b : String, s = a ++ t ++ b

/-! ## Errors

Embedding of the Python exception classes that the source raises or
inspects.  `improperlyConfigured` is the configuration error
(`ImproperlyConfigured`); `importError` stands for the
`ModuleNotFoundError`/`ImportError` class raised by a failing import of the
named path; `otherError` is an opaque exception unrelated to the above. -/

inductive PyErr where
  | improperlyConfigured (msg : String)
  | typeError (msg : String)
  | keyError (key : String)
  | attributeError (nm : String)
  | importError (path : String)
  | otherError (tag : String)
  deriving DecidableEq, Repr

/-! ## Dotted-path resolver (`import_callable`, appsettings.py lines 17-35)

The dynamic-import primitive is an abstract environment: `importModule`
returns `none` exactly when Python's `import_module` would raise
`ModuleNotFoundError`, and `getattr` returns `none` exactly when attribute
lookup would raise `AttributeError`. -/

structure ImportEnv (α : Type) where
  importModule : String → Option α
  getattr : α → String → Option α

/-- The `while imported_mod is None and module_parts:` loop of
`import_callable`, with an explicit fuel argument (the loop runs at most
`module_parts.length` times, one segment being popped per iteration). -/
def findModuleAux {α : Type} (env : ImportEnv α) :
    Nat → List String → List String → Option (α × List String)
  | 0, _, _ => none
  | _ + 1, [], _ => none
  | fuel + 1, p :: ps, attrs =>
    match env.importModule (joinDot (p :: ps)) with
    | some m => some (m, attrs)
    | none =>
      findModuleAux env fuel (p :: ps).dropLast
        ((p :: ps).getLastD "" :: attrs)

/-- Search for the longest importable module prefix, returning the imported
module together with the remaining attribute parts. -/
def findModule {α : Type} (env : ImportEnv α) (parts attrs : List String) :
    Option (α × List String) :=
  findModuleAux env parts.length parts attrs

/-- The `reduce(getattr, attribute_parts, imported_mod)` step: sequential
attribute lookup, left to right, raising `AttributeError` on a miss. -/
def walkAttrs {α : Type} (env : ImportEnv α) (start : α) :
    List String → Except PyErr α
  | [] => .ok start
  | a :: rest =>
    match env.getattr start a with
    | some v => walkAttrs env v rest
    | none => .error (.attributeError a)

/-- Embedding of `import_callable(python_path)`.  When no prefix of the
split path is importable, the source re-imports the original full path so
that the natural `ModuleNotFoundError` escapes; in the embedding the import
primitive is a pure function, so that final attempt fails again and is
rendered as `PyErr.importError python_path`. -/
def import_callable {α : Type} (env : ImportEnv α) (python_path : String) :
    Except PyErr α :=
  match findModule env (splitDot python_path) [] with
  | some (m, attrs) => walkAttrs env m attrs
  | none => .error (.importError python_path)

/-! ## Python values

Shallow embedding of the structured values the settings pipeline handles:
scalars, strings, lists, tuples, dicts (association lists in insertion
order, keys unique as in Python) and opaque constructed objects. -/

inductive PyVal where
  | vnone
  | vbool (b : Bool)
  | vint (n : Int)
  | vstr (s : String)
  | vlist (xs : List PyVal)
  | vtuple (xs : List PyVal)
  | vdict (ps : List (String × PyVal))
  | vobj (tag : String) (fields : List (String × PyVal))
  deriving Repr

/-- A Python dict with string keys, in insertion order. -/
abbrev Dict := List (String × PyVal)

/-- Python `d[k]` on a dict: the value at the first matching key. -/
def dictGet : Dict → String → Option PyVal
  | [], _ => none
  | (k', v) :: rest, k => if k' = k then some v else dictGet rest k

/-- Python `d[k] = v`: replace in place if the key exists (keeping its
insertion position), otherwise append at the end. -/
def dictSet : Dict → String → PyVal → Dict
  | [], k, v => [(k, v)]
  | (k', v') :: rest, k, v =>
    if k' = k then (k', v) :: rest else (k', v') :: dictSet rest k v

/-- Python `d.update(u)`: apply every key of `u` to `d`, left to right. -/
def dictUpdate (d u : Dict) : Dict :=
  u.foldl (fun acc kv => dictSet acc kv.1 kv.2) d

/-- Python subscription `value[key]` with a string key: a dict lookup
raising `KeyError` on a missing key; any non-dict value raises a
`TypeError` (the raw mappings handled by the pipeline are dicts). -/
def pySubscript (v : PyVal) (key : String) : Except PyErr PyVal :=
  match v with
  | .vdict d =>
    match dictGet d key with
    | some x => .ok x
    | none => .error (.keyError key)
  | _ => .error (.typeError "object is not subscriptable")

/-! ## `SettingsObject` and the `Setting` descriptor (lines 38-97) -/

/-- `SettingsObject(name, user_settings)`: a name used for error paths and
the raw mapping of user settings. -/
structure SettingsObject where
  name : String
  user_settings : PyVal
  deriving Repr

/-- A Python callable usable as a `Setting` default: the source calls it
first with the owning `SettingsObject` as the single argument and, if that
raises `TypeError`, retries with zero arguments.  Both entry points are
embedded explicitly; each returns a value or raises. -/
structure PyCallable where
  call1 : SettingsObject → Except PyErr PyVal
  call0 : Except PyErr PyVal

/-- The `default` argument of `Setting.__init__`: the `NO_DEFAULT`
sentinel, a plain value, or a callable (`callable(self.default)` in the
source distinguishes the last two). -/
inductive SettingDefault where
  | noDefault
  | value (v : PyVal)
  | callable (f : PyCallable)

/-- A `Setting` descriptor: the attribute name bound by `__set_name__`
and the declared default. -/
structure Setting where
  name : String
  default : SettingDefault

/-- `Setting._get_default` (lines 83-93): no default raises
`ImproperlyConfigured('Required setting: <owner>.<name>')`; a callable
default is invoked with the instance, retrying with zero arguments when
that raises any `TypeError`; otherwise the declared value is returned. -/
def Setting.getDefault (s : Setting) (inst : SettingsObject) : Except PyErr PyVal :=
  match s.default with
  | .noDefault =>
    .error (.improperlyConfigured ("Required setting: " ++ inst.name ++ "." ++ s.name))
  | .value v => .ok v
  | .callable f =>
    match f.call1 inst with
    | .error (.typeError _) => f.call0
    | r => r

/-- `Setting.__get__` (lines 74-81): return the raw mapping's entry for
the setting name verbatim, falling back to `_get_default` exactly when the
lookup raises `KeyError`. -/
def Setting.get (s : Setting) (inst : SettingsObject) : Except PyErr PyVal :=
  match pySubscript inst.user_settings s.name with
  | .error (.keyError _) => s.getDefault inst
  | r => r

/-- The builtin `dict` used as the declared default by `MergedDictSetting`
and `NestedSetting` (`super().__init__(default = dict)`): `dict(instance)`
raises `TypeError` because a `SettingsObject` is not iterable, and `dict()`
returns a fresh empty dict. -/
def dictBuiltin : PyCallable where
  call1 := fun _ => .error (.typeError "'SettingsObject' object is not iterable")
  call0 := .ok (.vdict [])

/-! ## `MergedDictSetting` (lines 100-112) -/

/-- A `MergedDictSetting`: bound name plus the declared defaults dict. -/
structure MergedDictSetting where
  name : String
  defaults : Dict

/-- `MergedDictSetting.__get__`: `merged = self.defaults.copy()` followed by
`merged.update(super().__get__(instance, owner))`.  The base lookup uses
`default = dict`, so an absent key merges an empty dict.  Updating with a
non-dict value is a `TypeError` (non-dict iterables of pairs are not
modelled; the pipeline's raw merged values are dicts). -/
def MergedDictSetting.get (m : MergedDictSetting) (inst : SettingsObject) :
    Except PyErr PyVal :=
  match Setting.get { name := m.name, default := .callable dictBuiltin } inst with
  | .ok (.vdict u) => .ok (.vdict (dictUpdate m.defaults u))
  | .ok _ => .error (.typeError "update argument is not a mapping")
  | .error e => .error e

/-! ## `NestedSetting` (lines 115-129) -/

/-- A `NestedSetting`; `settings_class` is modelled as the `SettingsObject`
constructor itself (the class is instantiated with a name and the raw
value, which is all the embedding observes). -/
structure NestedSetting where
  name : String

/-- `NestedSetting.__get__`: build a nested settings object named
`<owner-name>.<setting-name>` whose raw mapping is the resolved value
itself; the base lookup uses `default = dict`. -/
def NestedSetting.get (n : NestedSetting) (inst : SettingsObject) :
    Except PyErr SettingsObject :=
  match Setting.get { name := n.name, default := .callable dictBuiltin } inst with
  | .ok v => .ok { name := inst.name ++ "." ++ n.name, user_settings := v }
  | .error e => .error e

/-! ## The message patterns of `ObjectFactorySetting` (lines 161-163)

The source inspects `TypeError` messages with three patterns:
`MISSING_ARG_REGEX`, the plain substring `INVALID_ARG_MATCH`, and
`ARG_NAME_REGEX` for quoted argument names.  The patterns are embedded as
executable scanners over `List Char` with the same semantics. -/

/-- The apostrophe character used by `ARG_NAME_REGEX`. -/
def quoteChar : Char := Char.ofNat 39

/-- A regex word character (ASCII reading of a Python message). -/
def isWordChar (c : Char) : Bool := c.isAlphanum || c = '_'

/-- Strip a literal from the front of the input, or fail. -/
def dropLit : List Char → List Char → Option (List Char)
  | cs, [] => some cs
  | [], _ :: _ => none
  | c :: cs, p :: ps => if c = p then dropLit cs ps else none

/-- Whether the input starts with the given literal. -/
def startsWithLit : List Char → List Char → Bool
  | _, [] => true
  | [], _ :: _ => false
  | c :: cs, p :: ps => c = p && startsWithLit cs ps

/-- Whether the pattern occurs as a contiguous substring. -/
def containsSub : List Char → List Char → Bool
  | [], pat => pat.isEmpty
  | c :: cs, pat => startsWithLit (c :: cs) pat || containsSub cs pat

/-- Whether `MISSING_ARG_REGEX`, that is
`missing \d+ required positional arguments?: `, matches at the start of
the input: the literal `missing `, one or more digits, the literal
` required positional argument`, an optional `s`, then `: `. -/
def missingArgPatAt (cs : List Char) : Bool :=
  match dropLit cs "missing ".data with
  | none => false
  | some rest1 =>
    let ds := rest1.takeWhile Char.isDigit
    if ds.isEmpty then false
    else
      match dropLit (rest1.drop ds.length) " required positional argument".data with
      | none => false
      | some rest2 => startsWithLit rest2 ": ".data || startsWithLit rest2 "s: ".data

/-- `re.search(MISSING_ARG_REGEX, message)`: the pattern matches at some
position of the message. -/
def searchMissingArg : List Char → Bool
  | [] => false
  | c :: cs => missingArgPatAt (c :: cs) || searchMissingArg cs

/-- `re.findall(ARG_NAME_REGEX, message)` for the pattern quoted-word
(`'(\w+)'`): scan left to right, collecting non-overlapping matches and
resuming after each closing quote.  Structured on a fuel argument (one
unit per scanned position, so the message length suffices). -/
def findArgNamesAux : Nat → List Char → List String
  | 0, _ => []
  | _ + 1, [] => []
  | fuel + 1, c :: cs =>
    if c = quoteChar then
      let w := cs.takeWhile isWordChar
      if w.isEmpty then findArgNamesAux fuel cs
      else
        match cs.drop w.length with
        | d :: rest =>
          if d = quoteChar then String.mk w :: findArgNamesAux fuel rest
          else findArgNamesAux fuel cs
        | [] => findArgNamesAux fuel cs
    else findArgNamesAux fuel cs

/-- All quoted argument names occurring in a message, in order. -/
def findArgNames (cs : List Char) : List String := findArgNamesAux cs.length cs

/-- `INVALID_ARG_MATCH` (line 162). -/
def invalidArgMatch : String := "got an unexpected keyword argument"

/-! ## `ObjectFactorySetting._process_item` (lines 165-211)

The import primitive and factory invocation are one abstract environment:
`call factory kwargs` is `factory(**kwargs)`, returning a value or raising
(`PyErr.typeError` is what the source's `except TypeError` catches). -/

structure FactoryEnv extends ImportEnv PyVal where
  call : PyVal → Dict → Except PyErr PyVal

/-- The `try: return factory(**kwargs) except TypeError as exc:` block
(lines 176-197): a `TypeError` whose message matches `MISSING_ARG_REGEX`
becomes `ImproperlyConfigured('Required setting(s): ...')` listing every
quoted name as `<prefix>.PARAMS.<NAME>` upper-cased, comma-joined; else a
message containing `INVALID_ARG_MATCH` becomes
`ImproperlyConfigured('Invalid setting: <prefix>.PARAMS.<NAME>')` for the
first quoted name (`match.group(1)` on no match is an `AttributeError`);
any other `TypeError`, and any non-`TypeError` exception, propagates. -/
def callFactory (env : FactoryEnv) (factory : PyVal) (pfx : String)
    (kwargs : Dict) : Except PyErr PyVal :=
  match env.call factory kwargs with
  | .ok v => .ok v
  | .error (.typeError msg) =>
    if searchMissingArg msg.data then
      .error (.improperlyConfigured ("Required setting(s): " ++
        joinCommaSpace ((findArgNames msg.data).map
          (fun n => pfx ++ ".PARAMS." ++ strUpper n))))
    else if containsSub msg.data invalidArgMatch.data then
      match (findArgNames msg.data).head? with
      | some n =>
        .error (.improperlyConfigured ("Invalid setting: " ++ pfx ++ ".PARAMS." ++
          strUpper n))
      | none => .error (.attributeError "group")
    else .error (.typeError msg)
  | .error e => .error e

/-- Values found by `dictGet` are structurally smaller than the dict. -/
theorem dictGet_sizeOf {ps : Dict} {k : String} {v : PyVal}
    (h : dictGet ps k = some v) : sizeOf v < sizeOf ps := by
  induction ps with
  | nil => simp [dictGet] at h
  | cons hd tl ih =>
    obtain ⟨k', v'⟩ := hd
    by_cases hk : k' = k
    · simp [dictGet, hk] at h
      subst h
      simp
      omega
    · simp [dictGet, hk] at h
      have := ih h
      simp
      omega

mutual

/-- `_process_item(item, prefix)`: a dict containing `FACTORY` takes the
factory branch; any other dict has its values processed with the prefix
extended by `.<key>`; a list or tuple has its elements processed into a
list with the prefix extended by `[<index>]`; anything else is returned
unchanged. -/
def processItem (env : FactoryEnv) (item : PyVal) (pfx : String) :
    Except PyErr PyVal :=
  match item with
  | .vdict ps =>
    match dictGet ps "FACTORY" with
    | some fval => processFactory env ps fval pfx
    | none => (processDict env ps pfx).map PyVal.vdict
  | .vlist xs => (processSeq env xs pfx 0).map PyVal.vlist
  | .vtuple xs => (processSeq env xs pfx 0).map PyVal.vlist
  | other => .ok other
termination_by sizeOf item
decreasing_by
  all_goals simp

/-- The factory branch of `_process_item` (lines 167-197): import the
callable named by the `FACTORY` value (`.split` on a non-string raises
`AttributeError`), process `item.get('PARAMS', {})` into kwargs
(`.items()` on a non-dict `PARAMS` raises `AttributeError`), then invoke
through `callFactory`. -/
def processFactory (env : FactoryEnv) (ps : Dict) (fval : PyVal)
    (pfx : String) : Except PyErr PyVal :=
  match fval with
  | .vstr path =>
    match import_callable env.toImportEnv path with
    | .ok factory =>
      match h : dictGet ps "PARAMS" with
      | some (.vdict qs) =>
        (processParams env qs pfx).bind (fun kwargs => callFactory env factory pfx kwargs)
      | some _ => .error (.attributeError "items")
      | none => callFactory env factory pfx []
    | .error e => .error e
  | _ => .error (.attributeError "split")
termination_by sizeOf ps
decreasing_by
  have hlt := dictGet_sizeOf h
  simp at hlt
  omega

/-- The kwargs comprehension (lines 170-173): each `PARAMS` entry is
processed with the prefix extended by `.PARAMS.<key>` (the key verbatim)
and keyed by the lower-cased key. -/
def processParams (env : FactoryEnv) (qs : Dict) (pfx : String) :
    Except PyErr Dict :=
  match qs with
  | [] => .ok []
  | (k, v) :: rest =>
    (processItem env v (pfx ++ ".PARAMS." ++ k)).bind (fun r =>
      (processParams env rest pfx).map (fun rs => (strLower k, r) :: rs))
termination_by sizeOf qs
decreasing_by
  all_goals simp
  all_goals omega

/-- The plain-dict comprehension (lines 199-203): values processed,
keys preserved, prefix extended by `.<key>`. -/
def processDict (env : FactoryEnv) (ps : Dict) (pfx : String) :
    Except PyErr Dict :=
  match ps with
  | [] => .ok []
  | (k, v) :: rest =>
    (processItem env v (pfx ++ "." ++ k)).bind (fun r =>
      (processDict env rest pfx).map (fun rs => (k, r) :: rs))
termination_by sizeOf ps
decreasing_by
  all_goals simp
  all_goals omega

/-- The sequence comprehension (lines 204-209): elements processed in
order with the prefix extended by `[<index>]`, always yielding a list. -/
def processSeq (env : FactoryEnv) (xs : List PyVal) (pfx : String) (i : Nat) :
    Except PyErr (List PyVal) :=
  match xs with
  | [] => .ok []
  | x :: rest =>
    (processItem env x (pfx ++ "[" ++ toString i ++ "]")).bind (fun r =>
      (processSeq env rest pfx (i + 1)).map (fun rs => r :: rs))
termination_by sizeOf xs
decreasing_by
  all_goals simp
  all_goals omega

end

/-- `ObjectFactorySetting.__get__` (lines 213-217): base resolution
followed by `_process_item` rooted at `<owner-name>.<setting-name>`. -/
def ObjectFactorySetting.get (env : FactoryEnv) (s : Setting)
    (inst : SettingsObject) : Except PyErr PyVal :=
  (Setting.get s inst).bind (fun raw => processItem env raw (inst.name ++ "." ++ s.name))

/-! ## Characterization of the module-prefix search -/

/-- Dropping the last element of a `(k+1)`-prefix gives the `k`-prefix. -/
theorem take_succ_dropLast {α : Type} (P : List α) (k : Nat) (h : k < P.length) :
    (P.take (k+1)).dropLast = P.take k := by
  rw [List.dropLast_eq_take, List.take_take]
  congr 1
  simp
  omega

/-- The last element of a `(k+1)`-prefix is the element at index `k`. -/
theorem take_succ_getLastD (P : List String) (k : Nat) (h : k < P.length) :
    (P.take (k+1)).getLastD "" = P[k] := by
  have hne : P.take (k+1) ≠ [] := by
    apply List.ne_nil_of_length_pos
    simp
    omega
  rw [List.getLastD_eq_getLast?, List.getLast?_eq_getLast _ hne, Option.getD_some]
  rw [List.getLast_eq_getElem]
  rw [List.getElem_take]
  congr 1
  simp
  omega

/-- If every nonempty prefix of length at most `k` fails to import, the
search loop started on the `k`-prefix state finds nothing. -/
theorem findModuleAux_all_fail {α : Type} (env : ImportEnv α) (P : List String) :
    ∀ k, k ≤ P.length →
    (∀ j, 1 ≤ j → j ≤ k → env.importModule (joinDot (P.take j)) = none) →
    findModuleAux env k (P.take k) (P.drop k) = none := by
  intro k
  induction k with
  | zero => intro _ _; simp [findModuleAux]
  | succ k ih =>
    intro hk hall
    have hklt : k < P.length := by omega
    have hne : P.take (k+1) ≠ [] := by
      apply List.ne_nil_of_length_pos
      simp
      omega
    obtain ⟨p, ps, hcons⟩ := List.exists_cons_of_ne_nil hne
    rw [hcons]
    have him : env.importModule (joinDot (p :: ps)) = none := by
      rw [← hcons]
      exact hall (k+1) (by omega) (by omega)
    simp only [findModuleAux, him]
    rw [← hcons, take_succ_dropLast P k hklt, take_succ_getLastD P k hklt,
        ← List.drop_eq_getElem_cons hklt]
    exact ih (by omega) (fun j h1 h2 => hall j h1 (by omega))

/-- If the `k`-prefix imports (`1 ≤ k`) and every longer prefix fails, the
search returns that module together with the remaining segments. -/
theorem findModuleAux_success {α : Type} (env : ImportEnv α) (P : List String)
    (k : Nat) (m : α) (hk1 : 1 ≤ k) (hkn : k ≤ P.length)
    (hok : env.importModule (joinDot (P.take k)) = some m)
    (hfail : ∀ j, k < j → j ≤ P.length → env.importModule (joinDot (P.take j)) = none) :
    findModule env P [] = some (m, P.drop k) := by
  have key : ∀ d, k + d ≤ P.length →
      findModuleAux env (k + d) (P.take (k + d)) (P.drop (k + d)) = some (m, P.drop k) := by
    intro d
    induction d with
    | zero =>
      intro hd
      have hne : P.take k ≠ [] := by
        apply List.ne_nil_of_length_pos
        simp
        omega
      obtain ⟨p, ps, hcons⟩ := List.exists_cons_of_ne_nil hne
      have hk : k = (k - 1) + 1 := by omega
      simp only [Nat.add_zero]
      rw [hcons]
      have him : env.importModule (joinDot (p :: ps)) = some m := by
        rw [← hcons]; exact hok
      rw [hk]
      simp only [findModuleAux, him]
    | succ d ih =>
      intro hd
      have hklt : k + d < P.length := by omega
      have hne : P.take (k + d + 1) ≠ [] := by
        apply List.ne_nil_of_length_pos
        simp
        omega
      obtain ⟨p, ps, hcons⟩ := List.exists_cons_of_ne_nil hne
      rw [show k + (d + 1) = (k + d) + 1 by omega, hcons]
      have him : env.importModule (joinDot (p :: ps)) = none := by
        rw [← hcons]
        exact hfail (k + d + 1) (by omega) (by omega)
      simp only [findModuleAux, him]
      rw [← hcons, take_succ_dropLast P (k+d) hklt, take_succ_getLastD P (k+d) hklt,
          ← List.drop_eq_getElem_cons hklt]
      exact ih (by omega)
  have h2 := key (P.length - k) (by omega)
  rw [show k + (P.length - k) = P.length by omega] at h2
  rw [List.take_length, List.drop_length] at h2
  unfold findModule
  exact h2

/-- C1: `import_callable` splits the path on `.` and searches for the
longest importable prefix, moving the last prefix segment to the front of
the attribute suffix on each module-not-found failure; if no nonempty
prefix imports it fails with an import error for the original path; once a
prefix imports, the suffix is resolved by sequential left-to-right
attribute lookup from the imported module, a missing segment raising an
attribute error. -/
theorem C1_resolver (α : Type) (env : ImportEnv α) (path : String) :
    ((∀ j, j < (splitDot path).length + 1 → 1 ≤ j →
        env.importModule (joinDot ((splitDot path).take j)) = none) →
      import_callable env path = .error (.importError path))
    ∧ (∀ k m, 1 ≤ k → k ≤ (splitDot path).length →
        env.importModule (joinDot ((splitDot path).take k)) = some m →
        (∀ j, j < (splitDot path).length + 1 → k < j →
          env.importModule (joinDot ((splitDot path).take j)) = none) →
        import_callable env path = walkAttrs env m ((splitDot path).drop k))
    ∧ (∀ m : α, walkAttrs env m [] = .ok m)
    ∧ (∀ (m v : α) (a : String) (rest : List String), env.getattr m a = some v →
        walkAttrs env m (a :: rest) = walkAttrs env v rest)
    ∧ (∀ (m : α) (a : String) (rest : List String), env.getattr m a = none →
        walkAttrs env m (a :: rest) = .error (.attributeError a)) := by
  refine ⟨?_, ?_, ?_, ?_, ?_⟩
  · intro hall
    have h := findModuleAux_all_fail env (splitDot path) (splitDot path).length (le_refl _)
      (fun j h1 h2 => hall j (by omega) h1)
    rw [List.take_length, List.drop_length] at h
    unfold import_callable findModule
    rw [h]
  · intro k m hk1 hkn hok hfail
    have h := findModuleAux_success env (splitDot path) k m hk1 hkn hok
      (fun j h1 h2 => hfail j (by omega) h1)
    unfold import_callable
    rw [h]
  · intro m; rfl
  · intro m v a rest h; simp only [walkAttrs, h]
  · intro m a rest h; simp only [walkAttrs, h]

/-- Demo import environment for the C1 witness, with modules and
attributes coded as naturals: only `pkg.mod` is importable, carrying an
attribute chain `Class.method`. -/
def demoIEnv : ImportEnv Nat where
  importModule := fun s => if s = "pkg.mod" then some 10 else none
  getattr := fun m a =>
    if m = 10 && a = "Class" then some 11
    else if m = 11 && a = "method" then some 12
    else none

/-- Witness for C1 at the spec's own example `pkg.mod.Class.method`. -/
theorem C1_resolver_witness :
    import_callable demoIEnv "pkg.mod.Class.method" = walkAttrs demoIEnv 10 ["Class", "method"]
    ∧ import_callable demoIEnv "pkg.mod.Class.method" = .ok 12
    ∧ import_callable demoIEnv "nosuch.mod" = .error (.importError "nosuch.mod")
    ∧ walkAttrs demoIEnv 10 ["nope"] = .error (.attributeError "nope") := by
  have hsucc := (C1_resolver Nat demoIEnv "pkg.mod.Class.method").2.1 2 10
    (by decide) (by decide) (by decide) (by decide)
  have hfail := (C1_resolver Nat demoIEnv "nosuch.mod").1 (by decide)
  have hattr := (C1_resolver Nat demoIEnv "nosuch.mod").2.2.2.2 10 "nope" [] (by decide)
  refine ⟨?_, ?_, hfail, ?_⟩
  · simpa using hsucc
  · rw [hsucc]; rfl
  · simpa using hattr

/-! ## Claims C4 and C5: base `Setting` resolution -/

/-- C4: with an absent key, access raises the required-setting error (its
message containing `<config-name>.<setting-name>`) precisely when no
default was declared; a static default is returned exactly, and an
explicit `None` default does not raise. -/
theorem C4_default_dichotomy (nm : String) (inst : SettingsObject) (d : Dict)
    (h1 : inst.user_settings = .vdict d) (h2 : dictGet d nm = none) :
    (Setting.get { name := nm, default := .noDefault } inst =
        .error (.improperlyConfigured ("Required setting: " ++ inst.name ++ "." ++ nm))
      ∧ strContains ("Required setting: " ++ inst.name ++ "." ++ nm) (inst.name ++ "." ++ nm))
    ∧ (∀ v : PyVal, Setting.get { name := nm, default := .value v } inst = .ok v)
    ∧ Setting.get { name := nm, default := .value .vnone } inst = .ok .vnone
    ∧ (∀ dv : SettingDefault, (dv = .noDefault ∨ ∃ v, dv = .value v) →
        ((∃ m, Setting.get { name := nm, default := dv } inst =
            .error (.improperlyConfigured m)) ↔ dv = .noDefault)) := by
  have hsub : pySubscript inst.user_settings nm = .error (.keyError nm) := by
    rw [h1]
    simp [pySubscript, h2]
  refine ⟨⟨?_, ?_⟩, ?_, ?_, ?_⟩
  · simp [Setting.get, hsub, Setting.getDefault]
  · exact ⟨"Required setting: ", "", by simp [String.append_assoc]⟩
  · intro v
    simp [Setting.get, hsub, Setting.getDefault]
  · simp [Setting.get, hsub, Setting.getDefault]
  · rintro dv (rfl | ⟨v, rfl⟩)
    · simp [Setting.get, hsub, Setting.getDefault]
    · simp [Setting.get, hsub, Setting.getDefault]

/-- Demo settings object for the C4 and C5 witnesses. -/
def c4Obj : SettingsObject :=
  { name := "APP", user_settings := .vdict [("PRESENT", .vint 1)] }

/-- Witness for C4 at a concrete absent key. -/
theorem C4_default_dichotomy_witness :
    Setting.get { name := "DEBUG", default := .noDefault } c4Obj =
      .error (.improperlyConfigured "Required setting: APP.DEBUG")
    ∧ Setting.get { name := "DEBUG", default := .value .vnone } c4Obj = .ok .vnone := by
  have h := C4_default_dichotomy "DEBUG" c4Obj [("PRESENT", .vint 1)] rfl rfl
  exact ⟨h.1.1, h.2.2.1⟩

/-- C5 as amended: the callable default is first invoked with the owning
settings object; the zero-argument retry happens exactly when that call
raises a `TypeError` of any kind (not only arity mismatches); other
outcomes of the one-argument call pass through. -/
theorem C5_callable_default (nm : String) (f : PyCallable) (inst : SettingsObject)
    (d : Dict) (h1 : inst.user_settings = .vdict d) (h2 : dictGet d nm = none) :
    (∀ v, f.call1 inst = .ok v →
      Setting.get { name := nm, default := .callable f } inst = .ok v)
    ∧ (∀ msg, f.call1 inst = .error (.typeError msg) →
      Setting.get { name := nm, default := .callable f } inst = f.call0)
    ∧ (∀ e, f.call1 inst = .error e → (∀ msg, e ≠ .typeError msg) →
      Setting.get { name := nm, default := .callable f } inst = .error e) := by
  have hsub : pySubscript inst.user_settings nm = .error (.keyError nm) := by
    rw [h1]
    simp [pySubscript, h2]
  refine ⟨?_, ?_, ?_⟩
  · intro v hv
    simp [Setting.get, hsub, Setting.getDefault, hv]
  · intro msg hm
    simp [Setting.get, hsub, Setting.getDefault, hm]
  · intro e he hne
    cases e with
    | typeError m => exact absurd rfl (hne m)
    | _ => simp [Setting.get, hsub, Setting.getDefault, he]

/-- A one-argument callable default whose single-argument call raises a
`TypeError` that is not about arity (no argument words in the message at
all), while its zero-argument form returns 42. -/
def c5BadDefault : PyCallable where
  call1 := fun _ => .error (.typeError "unsupported operand type(s) for +: 'int' and 'NoneType'")
  call0 := .ok (.vint 42)

/-- C5 counterexample: the zero-argument retry fires on a `TypeError` that
is not an arity mismatch (its message matches neither the source's
missing-argument pattern nor even the words `positional argument`), so
access returns the zero-argument result instead of propagating the
error, contradicting the claim that only arity failures trigger the
retry. -/
theorem C5_counterexample :
    Setting.get { name := "TIMEOUT", default := .callable c5BadDefault } c4Obj = .ok (.vint 42)
    ∧ searchMissingArg "unsupported operand type(s) for +: 'int' and 'NoneType'".data = false
    ∧ containsSub "unsupported operand type(s) for +: 'int' and 'NoneType'".data
        "positional argument".data = false := by
  refine ⟨rfl, by decide, by decide⟩

/-- An owner-aware callable default, returning the owner's name. -/
def c5OkDefault : PyCallable where
  call1 := fun inst => .ok (.vstr inst.name)
  call0 := .error (.typeError "c5ok() missing 1 required positional argument: 'inst'")

/-- Witness for the amended C5 theorem at concrete callables. -/
theorem C5_callable_default_witness :
    Setting.get { name := "TIMEOUT", default := .callable c5BadDefault } c4Obj = .ok (.vint 42)
    ∧ Setting.get { name := "TIMEOUT", default := .callable c5OkDefault } c4Obj = .ok (.vstr "APP") := by
  constructor
  · exact (C5_callable_default "TIMEOUT" c5BadDefault c4Obj [("PRESENT", .vint 1)] rfl rfl).2.1
      "unsupported operand type(s) for +: 'int' and 'NoneType'" rfl
  · exact (C5_callable_default "TIMEOUT" c5OkDefault c4Obj [("PRESENT", .vint 1)] rfl rfl).1
      (.vstr "APP") rfl

/-! ## Claim C7: the merged-dict overlay -/

/-- Looking up after a single `dictSet` finds the new value exactly at the
written key. -/
theorem dictGet_dictSet (d : Dict) (k0 k : String) (v0 : PyVal) :
    dictGet (dictSet d k0 v0) k = if k0 = k then some v0 else dictGet d k := by
  induction d with
  | nil => simp [dictGet, dictSet]
  | cons hd tl ih =>
    obtain ⟨k', v'⟩ := hd
    simp only [dictSet]
    split_ifs with h1 h2 <;> simp_all [dictGet]

/-- A key outside a dict's key list is not found. -/
theorem dictGet_eq_none_of_not_mem (u : Dict) (k : String) (h : k ∉ u.map Prod.fst) :
    dictGet u k = none := by
  induction u with
  | nil => rfl
  | cons hd tl ih =>
    obtain ⟨k2, v2⟩ := hd
    simp only [List.map_cons, List.mem_cons, not_or] at h
    have hne : ¬ k2 = k := fun hh => h.1 hh.symm
    simp only [dictGet, if_neg hne]
    exact ih h.2

/-- Lookup after `dictUpdate`: the updating dict wins on key collision and
the base dict answers otherwise (keys of a Python dict are unique). -/
theorem dictGet_dictUpdate (d u : Dict) (hnd : (u.map Prod.fst).Nodup) (k : String) :
    dictGet (dictUpdate d u) k =
      if (dictGet u k).isSome then dictGet u k else dictGet d k := by
  induction u generalizing d with
  | nil => simp [dictGet, dictUpdate]
  | cons hd tl ih =>
    obtain ⟨k0, v0⟩ := hd
    simp only [List.map_cons, List.nodup_cons] at hnd
    obtain ⟨hk0, hnd'⟩ := hnd
    have step : dictUpdate d ((k0, v0) :: tl) = dictUpdate (dictSet d k0 v0) tl := by
      simp [dictUpdate]
    rw [step, ih _ hnd']
    by_cases hkk : k0 = k
    · subst hkk
      have hu : dictGet tl k0 = none := dictGet_eq_none_of_not_mem tl k0 hk0
      simp [dictGet, hu, dictGet_dictSet]
    · simp only [dictGet]
      rw [if_neg (fun hc : k0 = k => hkk hc)]
      rw [dictGet_dictSet]
      rw [if_neg hkk]

/-- C7: a merged-dict access overlays the raw user mapping on a copy of
the declared defaults, the user value winning on collision; an absent key
yields exactly the declared defaults; and the spec's own example
`{A:1, B:2}` overlaid with `{B:3, C:4}` gives `{A:1, B:3, C:4}`. -/
theorem C7_merged (m : MergedDictSetting) (inst : SettingsObject) (d : Dict)
    (h1 : inst.user_settings = .vdict d) :
    (∀ u : Dict, dictGet d m.name = some (.vdict u) →
      MergedDictSetting.get m inst = .ok (.vdict (dictUpdate m.defaults u))
      ∧ ((u.map Prod.fst).Nodup → ∀ k, dictGet (dictUpdate m.defaults u) k =
          if (dictGet u k).isSome then dictGet u k else dictGet m.defaults k))
    ∧ (dictGet d m.name = none → MergedDictSetting.get m inst = .ok (.vdict m.defaults))
    ∧ MergedDictSetting.get { name := "OPTS", defaults := [("A", .vint 1), ("B", .vint 2)] }
        { name := "APP", user_settings := .vdict [("OPTS", .vdict [("B", .vint 3), ("C", .vint 4)])] }
        = .ok (.vdict [("A", .vint 1), ("B", .vint 3), ("C", .vint 4)]) := by
  refine ⟨?_, ?_, rfl⟩
  · intro u hu
    constructor
    · simp [MergedDictSetting.get, Setting.get, pySubscript, h1, hu]
    · intro hnd k
      exact dictGet_dictUpdate m.defaults u hnd k
  · intro habs
    simp [MergedDictSetting.get, Setting.get, pySubscript, h1, habs, Setting.getDefault,
      dictBuiltin, dictUpdate]

/-- Witness for C7 at the spec's example and at an absent key. -/
theorem C7_merged_witness :
    MergedDictSetting.get { name := "OPTS", defaults := [("A", .vint 1), ("B", .vint 2)] }
        { name := "APP", user_settings := .vdict [("OPTS", .vdict [("B", .vint 3), ("C", .vint 4)])] }
        = .ok (.vdict (dictUpdate [("A", .vint 1), ("B", .vint 2)] [("B", .vint 3), ("C", .vint 4)]))
    ∧ dictGet (dictUpdate [("A", .vint 1), ("B", .vint 2)] [("B", .vint 3), ("C", .vint 4)]) "B"
        = some (.vint 3)
    ∧ MergedDictSetting.get { name := "OPTS", defaults := [("A", .vint 1), ("B", .vint 2)] }
        { name := "APP", user_settings := .vdict [] }
        = .ok (.vdict [("A", .vint 1), ("B", .vint 2)]) := by
  have h := C7_merged { name := "OPTS", defaults := [("A", .vint 1), ("B", .vint 2)] }
    { name := "APP", user_settings := .vdict [("OPTS", .vdict [("B", .vint 3), ("C", .vint 4)])] }
    [("OPTS", .vdict [("B", .vint 3), ("C", .vint 4)])] rfl
  have h2 := C7_merged { name := "OPTS", defaults := [("A", .vint 1), ("B", .vint 2)] }
    { name := "APP", user_settings := .vdict [] } [] rfl
  refine ⟨(h.1 [("B", .vint 3), ("C", .vint 4)] rfl).1, ?_, h2.2.1 rfl⟩
  have h3 := (h.1 [("B", .vint 3), ("C", .vint 4)] rfl).2 (by decide) "B"
  rw [h3]
  rfl

/-! ## Claim C8: the nested settings object -/

/-- C8: a nested-setting access returns a new settings object named
`<owner-name>.<setting-name>` whose raw mapping is exactly the resolved
raw value, as in the spec's `ROOT`/`SUB` example. -/
theorem C8_nested (n : NestedSetting) (inst : SettingsObject) (d : Dict)
    (h1 : inst.user_settings = .vdict d) :
    (∀ v : PyVal, dictGet d n.name = some v →
      NestedSetting.get n inst =
        .ok { name := inst.name ++ "." ++ n.name, user_settings := v })
    ∧ NestedSetting.get { name := "SUB" }
        { name := "ROOT", user_settings := .vdict [("SUB", .vdict [("X", .vint 1)])] }
        = .ok { name := "ROOT.SUB", user_settings := .vdict [("X", .vint 1)] } := by
  refine ⟨?_, rfl⟩
  intro v hv
  simp [NestedSetting.get, Setting.get, pySubscript, h1, hv]

/-- Witness for C8 at the spec's `ROOT`/`SUB` example. -/
theorem C8_nested_witness :
    NestedSetting.get { name := "SUB" }
        { name := "ROOT", user_settings := .vdict [("SUB", .vdict [("X", .vint 1)])] }
        = .ok { name := "ROOT.SUB", user_settings := .vdict [("X", .vint 1)] } := by
  have h := (C8_nested { name := "SUB" }
    { name := "ROOT", user_settings := .vdict [("SUB", .vdict [("X", .vint 1)])] }
    [("SUB", .vdict [("X", .vint 1)])] rfl).1 (.vdict [("X", .vint 1)]) rfl
  simpa using h

/-! ## Claim C9: no mutation of the raw mapping or the defaults

The only in-place dict operations in the resolution pipeline are
`merged = self.defaults.copy()` and `merged.update(...)` in
`MergedDictSetting.__get__`; everything else only reads.  To state the
frame property those two lines are re-rendered over an explicit heap of
dicts (`copy` allocates a fresh cell at the end, `update` writes that
fresh cell in place), so that preservation of every pre-existing cell is
a real statement rather than a triviality of the pure embedding. -/

/-- A heap of Python dicts; a reference is an index. -/
abbrev Heap := List Dict

/-- Read the dict at a reference. -/
def heapRead : Heap → Nat → Option Dict
  | [], _ => none
  | d :: _, 0 => some d
  | _ :: rest, n + 1 => heapRead rest n

/-- Overwrite the dict at a reference in place. -/
def heapWrite : Heap → Nat → Dict → Heap
  | [], _, _ => []
  | _ :: rest, 0, d => d :: rest
  | x :: rest, n + 1, d => x :: heapWrite rest n d

/-- `MergedDictSetting.__get__` lines 110-111 over the explicit heap:
read the defaults and the raw value, allocate the copy, update the copy
in place, and return the new heap with the fresh reference. -/
def mergedGetHeap (h : Heap) (defaultsRef rawRef : Nat) : Heap × Nat :=
  let dflts := (heapRead h defaultsRef).getD []
  let rawv := (heapRead h rawRef).getD []
  let h1 := h ++ [dflts]
  let mergedRef := h.length
  let h2 := heapWrite h1 mergedRef (dictUpdate dflts rawv)
  (h2, mergedRef)

/-- Appending a fresh cell leaves every existing cell readable unchanged. -/
theorem heapRead_append_lt (h : Heap) (d : Dict) (r : Nat) (hr : r < h.length) :
    heapRead (h ++ [d]) r = heapRead h r := by
  induction h generalizing r with
  | nil => simp at hr
  | cons x rest ih =>
    cases r with
    | zero => rfl
    | succ n =>
      simp only [List.cons_append, heapRead]
      exact ih n (by simpa using hr)

/-- The appended cell is readable at the old length. -/
theorem heapRead_append_len (h : Heap) (d : Dict) :
    heapRead (h ++ [d]) h.length = some d := by
  induction h with
  | nil => rfl
  | cons x rest ih => simpa [heapRead] using ih

/-- Writing one cell leaves every other cell unchanged. -/
theorem heapRead_heapWrite_ne (h : Heap) (w r : Nat) (d : Dict) (hne : r ≠ w) :
    heapRead (heapWrite h w d) r = heapRead h r := by
  induction h generalizing w r with
  | nil => rfl
  | cons x rest ih =>
    cases w with
    | zero =>
      cases r with
      | zero => exact absurd rfl hne
      | succ n => rfl
    | succ m =>
      cases r with
      | zero => rfl
      | succ n =>
        simp only [heapWrite, heapRead]
        exact ih m n (fun hh => hne (by omega))

/-- A written cell reads back the written dict. -/
theorem heapRead_heapWrite_eq (h : Heap) (w : Nat) (d : Dict) (hw : w < h.length) :
    heapRead (heapWrite h w d) w = some d := by
  induction h generalizing w with
  | nil => simp at hw
  | cons x rest ih =>
    cases w with
    | zero => rfl
    | succ m =>
      simp only [heapWrite, heapRead]
      exact ih m (by simpa using hw)

/-- C9: a merged-dict access leaves every pre-existing dict of the heap
(in particular the declared defaults and the raw user mapping) unchanged,
returns a reference that is fresh, and that fresh cell holds the overlay
of the raw value on the defaults. -/
theorem C9_no_mutation (h : Heap) (dr rr : Nat) :
    (∀ r, r < h.length → heapRead (mergedGetHeap h dr rr).1 r = heapRead h r)
    ∧ (mergedGetHeap h dr rr).2 = h.length
    ∧ heapRead (mergedGetHeap h dr rr).1 (mergedGetHeap h dr rr).2 =
        some (dictUpdate ((heapRead h dr).getD []) ((heapRead h rr).getD [])) := by
  refine ⟨?_, rfl, ?_⟩
  · intro r hr
    show heapRead (heapWrite (h ++ [_]) h.length _) r = heapRead h r
    rw [heapRead_heapWrite_ne _ _ _ _ (by omega)]
    exact heapRead_append_lt h _ r hr
  · show heapRead (heapWrite (h ++ [_]) h.length _) h.length = _
    rw [heapRead_heapWrite_eq _ _ _ (by simp)]

/-- Witness for C9 at a concrete two-cell heap (defaults and raw value). -/
theorem C9_no_mutation_witness :
    heapRead (mergedGetHeap [[("A", .vint 1)], [("B", .vint 2)]] 0 1).1 0 = some [("A", .vint 1)]
    ∧ heapRead (mergedGetHeap [[("A", .vint 1)], [("B", .vint 2)]] 0 1).1 1 = some [("B", .vint 2)]
    ∧ (mergedGetHeap [[("A", .vint 1)], [("B", .vint 2)]] 0 1).2 = 2 := by
  have h := C9_no_mutation [[("A", .vint 1)], [("B", .vint 2)]] 0 1
  exact ⟨(h.1 0 (by simp)).trans rfl, (h.1 1 (by simp)).trans rfl, h.2.1⟩

/-! ## Claims C2, C3, C6 and C10: the object-factory processor -/

/-- Unfolding of the factory branch of `_process_item`: with an importable
`FACTORY` path and successfully processed `PARAMS`, the node's processing
is exactly the guarded factory invocation on those kwargs. -/
theorem processItem_factory_eq (env : FactoryEnv) (pfx : String) (ps qs : Dict)
    (path : String) (f : PyVal) (kwargs : Dict)
    (hF : dictGet ps "FACTORY" = some (.vstr path))
    (himp : import_callable env.toImportEnv path = .ok f)
    (hP : dictGet ps "PARAMS" = some (.vdict qs))
    (hq : processParams env qs pfx = .ok kwargs) :
    processItem env (.vdict ps) pfx = callFactory env f pfx kwargs := by
  rw [processItem.eq_def]
  simp only [hF]
  rw [processFactory.eq_def]
  simp only [himp]
  split
  case _ qs2 heq =>
    rw [hP] at heq
    injection heq with heq2
    injection heq2 with heq3
    subst heq3
    rw [hq]
    rfl
  case _ x heq hne =>
    rw [hP] at hne
    injection hne with hx
    exact absurd hx.symm (heq qs)
  case _ hnone =>
    rw [hP] at hnone
    exact absurd hnone (by simp)

/-- Successful sequence processing preserves the element count. -/
theorem processSeq_length (env : FactoryEnv) (pfx : String) :
    ∀ (xs : List PyVal) (i : Nat) (ys : List PyVal),
      processSeq env xs pfx i = .ok ys → ys.length = xs.length := by
  intro xs
  induction xs with
  | nil =>
    intro i ys h
    simp [processSeq] at h
    subst h
    rfl
  | cons x rest ih =>
    intro i ys h
    have heq : processSeq env (x :: rest) pfx i =
        (processItem env x (pfx ++ "[" ++ toString i ++ "]")).bind (fun r =>
          (processSeq env rest pfx (i + 1)).map (fun rs => r :: rs)) := by
      simp [processSeq]
    rw [heq] at h
    cases hx : processItem env x (pfx ++ "[" ++ toString i ++ "]") with
    | error e => rw [hx] at h; simp [Except.bind] at h
    | ok r =>
      rw [hx] at h
      cases hrest : processSeq env rest pfx (i + 1) with
      | error e => rw [hrest] at h; simp [Except.bind, Except.map] at h
      | ok rs =>
        rw [hrest] at h
        simp [Except.bind, Except.map] at h
        subst h
        simp [ih (i + 1) rs hrest]

/-- The kwargs built from `PARAMS` carry exactly the lower-cased keys, in
order. -/
theorem processParams_keys (env : FactoryEnv) (pfx : String) :
    ∀ (qs : Dict) (res : Dict), processParams env qs pfx = .ok res →
      res.map Prod.fst = qs.map (fun kv => strLower kv.1) := by
  intro qs
  induction qs with
  | nil =>
    intro res h
    simp [processParams] at h
    subst h
    rfl
  | cons hd tl ih =>
    obtain ⟨k, v⟩ := hd
    intro res h
    have heq : processParams env ((k, v) :: tl) pfx =
        (processItem env v (pfx ++ ".PARAMS." ++ k)).bind (fun r =>
          (processParams env tl pfx).map (fun rs => (strLower k, r) :: rs)) := by
      simp [processParams]
    rw [heq] at h
    cases hx : processItem env v (pfx ++ ".PARAMS." ++ k) with
    | error e => rw [hx] at h; simp [Except.bind] at h
    | ok r =>
      rw [hx] at h
      cases hrest : processParams env tl pfx with
      | error e => rw [hrest] at h; simp [Except.bind, Except.map] at h
      | ok rs =>
        rw [hrest] at h
        simp [Except.bind, Except.map] at h
        subst h
        simp [ih rs hrest]

/-- C2: a `TypeError` from the factory invocation whose message matches
the missing-argument pattern is reinterpreted as a required-setting error
listing every quoted argument name as `<prefix>.PARAMS.<NAME>`
(upper-cased, comma-joined); one whose message contains the
unexpected-keyword text is reinterpreted as an invalid-setting error for
the first quoted name; any other `TypeError`, and any non-`TypeError`
failure, propagates unchanged, and a successful call passes through. -/
theorem C2_error_translation (env : FactoryEnv) (factory : PyVal) (pfx : String)
    (kwargs : Dict) :
    (∀ msg, env.call factory kwargs = .error (.typeError msg) →
      (searchMissingArg msg.data = true →
        callFactory env factory pfx kwargs =
          .error (.improperlyConfigured ("Required setting(s): " ++
            joinCommaSpace ((findArgNames msg.data).map
              (fun n => pfx ++ ".PARAMS." ++ strUpper n)))))
      ∧ (searchMissingArg msg.data = false →
          containsSub msg.data invalidArgMatch.data = true →
          ∀ n, (findArgNames msg.data).head? = some n →
          callFactory env factory pfx kwargs =
            .error (.improperlyConfigured ("Invalid setting: " ++ pfx ++ ".PARAMS." ++
              strUpper n)))
      ∧ (searchMissingArg msg.data = false →
          containsSub msg.data invalidArgMatch.data = false →
          callFactory env factory pfx kwargs = .error (.typeError msg)))
    ∧ (∀ e, env.call factory kwargs = .error e → (∀ m, e ≠ .typeError m) →
        callFactory env factory pfx kwargs = .error e)
    ∧ (∀ v, env.call factory kwargs = .ok v →
        callFactory env factory pfx kwargs = .ok v) := by
  refine ⟨?_, ?_, ?_⟩
  · intro msg hm
    refine ⟨?_, ?_, ?_⟩
    · intro hmiss
      simp [callFactory, hm, hmiss]
    · intro hmiss hinv n hn
      simp [callFactory, hm, hmiss, hinv, hn]
    · intro hmiss hinv
      simp [callFactory, hm, hmiss, hinv]
  · intro e he hne
    cases e with
    | typeError m => exact absurd rfl (hne m)
    | _ => simp [callFactory, he]
  · intro v hv
    simp [callFactory, hv]

/-- Demo factory environment shared by the object-factory witnesses: one
importable module `mk`, whose attributes resolve to callables with the
realistic Python `TypeError` messages. -/
def factEnv : FactoryEnv where
  importModule := fun s => if s = "mk" then some (.vobj "mk" []) else none
  getattr := fun m a =>
    match m, a with
    | .vobj "mk" _, "outer" => some (.vstr "OUTER_FN")
    | .vobj "mk" _, "inner" => some (.vstr "INNER_FN")
    | .vobj "mk" _, "missing" => some (.vstr "MISSING_FN")
    | .vobj "mk" _, "invalid" => some (.vstr "INVALID_FN")
    | .vobj "mk" _, "boom" => some (.vstr "BOOM_FN")
    | _, _ => none
  call := fun f kwargs =>
    match f with
    | .vstr "OUTER_FN" => .ok (.vobj "Outer" kwargs)
    | .vstr "INNER_FN" =>
      if kwargs.isEmpty then
        .error (.typeError "inner() missing 1 required positional argument: 'port'")
      else .ok (.vobj "Inner" kwargs)
    | .vstr "MISSING_FN" =>
      .error (.typeError "make() missing 2 required positional arguments: 'host' and 'port'")
    | .vstr "INVALID_FN" =>
      .error (.typeError "make() got an unexpected keyword argument 'unknown'")
    | .vstr "BOOM_FN" => .error (.otherError "ValueError: boom")
    | _ => .error (.otherError "not callable")

/-- Witness for C2 at the three concrete failure kinds. -/
theorem C2_error_translation_witness :
    callFactory factEnv (.vstr "MISSING_FN") "APP.DB" [] =
      .error (.improperlyConfigured "Required setting(s): APP.DB.PARAMS.HOST, APP.DB.PARAMS.PORT")
    ∧ callFactory factEnv (.vstr "INVALID_FN") "APP.DB" [] =
      .error (.improperlyConfigured "Invalid setting: APP.DB.PARAMS.UNKNOWN")
    ∧ callFactory factEnv (.vstr "BOOM_FN") "APP.DB" [] = .error (.otherError "ValueError: boom") := by
  refine ⟨?_, ?_, ?_⟩
  · exact ((C2_error_translation factEnv (.vstr "MISSING_FN") "APP.DB" []).1
      "make() missing 2 required positional arguments: 'host' and 'port'" rfl).1 (by decide)
  · exact (((C2_error_translation factEnv (.vstr "INVALID_FN") "APP.DB" []).1
      "make() got an unexpected keyword argument 'unknown'" rfl).2.1 (by decide) (by decide)
      "unknown" (by decide))
  · exact (C2_error_translation factEnv (.vstr "BOOM_FN") "APP.DB" []).2.1
      (.otherError "ValueError: boom") rfl (by intro m; simp)

/-- C3: processing is structurally recursive: a `PARAMS` value that is a
factory spec is fully constructed and its constructed value is what is
passed (under the lower-cased key) to the outer factory; sequence nodes
process their elements in order (empty to empty, cons to cons, lengths
preserved); nodes that are neither mappings nor sequences come back
unchanged. -/
theorem C3_structural (env : FactoryEnv) (pfx : String) :
    (∀ (ps : Dict) (path : String) (f : PyVal) (k : String) (sub c : PyVal),
      dictGet ps "FACTORY" = some (.vstr path) →
      import_callable env.toImportEnv path = .ok f →
      dictGet ps "PARAMS" = some (.vdict [(k, sub)]) →
      processItem env sub (pfx ++ ".PARAMS." ++ k) = .ok c →
      processItem env (.vdict ps) pfx = callFactory env f pfx [(strLower k, c)])
    ∧ (∀ (x : PyVal) (rest : List PyVal) (i : Nat),
        processSeq env (x :: rest) pfx i =
          (processItem env x (pfx ++ "[" ++ toString i ++ "]")).bind (fun r =>
            (processSeq env rest pfx (i + 1)).map (fun rs => r :: rs)))
    ∧ (∀ i : Nat, processSeq env [] pfx i = .ok [])
    ∧ (∀ (xs : List PyVal) (i : Nat) (ys : List PyVal),
        processSeq env xs pfx i = .ok ys → ys.length = xs.length)
    ∧ (processItem env .vnone pfx = .ok .vnone)
    ∧ (∀ b, processItem env (.vbool b) pfx = .ok (.vbool b))
    ∧ (∀ n : Int, processItem env (.vint n) pfx = .ok (.vint n))
    ∧ (∀ s, processItem env (.vstr s) pfx = .ok (.vstr s))
    ∧ (∀ tag fields, processItem env (.vobj tag fields) pfx = .ok (.vobj tag fields)) := by
  refine ⟨?_, ?_, ?_, processSeq_length env pfx, ?_, ?_, ?_, ?_, ?_⟩
  · intro ps path f k sub c hF himp hP hsub
    rw [processItem_factory_eq env pfx ps [(k, sub)] path f [(strLower k, c)] hF himp hP]
    simp [processParams, hsub]
    rfl
  · intro x rest i
    simp [processSeq]
  · intro i
    simp [processSeq]
  · simp [processItem]
  · intro b; simp [processItem]
  · intro n; simp [processItem]
  · intro s; simp [processItem]
  · intro tag fields; simp [processItem]

/-- Witness for C3: a nested factory spec (`mk.inner` inside the `Size`
parameter of `mk.outer`) is fully constructed bottom-up. -/
theorem C3_structural_witness :
    processItem factEnv
      (.vdict [("FACTORY", .vstr "mk.outer"),
               ("PARAMS", .vdict [("Size",
                  .vdict [("FACTORY", .vstr "mk.inner"),
                          ("PARAMS", .vdict [("PORT", .vint 8080)])])])])
      "APP.X" =
      .ok (.vobj "Outer" [("size", .vobj "Inner" [("port", .vint 8080)])]) := by
  have hsub : processItem factEnv
      (.vdict [("FACTORY", .vstr "mk.inner"), ("PARAMS", .vdict [("PORT", .vint 8080)])])
      ("APP.X" ++ ".PARAMS." ++ "Size") =
      .ok (.vobj "Inner" [("port", .vint 8080)]) := by
    simp [processItem, processFactory, processParams, callFactory, dictGet]
    rfl
  have h := (C3_structural factEnv "APP.X").1
    [("FACTORY", .vstr "mk.outer"),
     ("PARAMS", .vdict [("Size",
        .vdict [("FACTORY", .vstr "mk.inner"), ("PARAMS", .vdict [("PORT", .vint 8080)])])])]
    "mk.outer" (.vstr "OUTER_FN") "Size"
    (.vdict [("FACTORY", .vstr "mk.inner"), ("PARAMS", .vdict [("PORT", .vint 8080)])])
    (.vobj "Inner" [("port", .vint 8080)])
    rfl rfl rfl hsub
  rw [h]
  rfl

/-- C6 counterexample: the recursion prefix for a `PARAMS` entry uses the
key verbatim (`.PARAMS.sub`), not upper-cased as the claim states: the
nested missing-argument error reports `P.S.PARAMS.sub.PARAMS.PORT` and not
`P.S.PARAMS.SUB.PARAMS.PORT`. -/
theorem C6_counterexample :
    processItem factEnv
      (.vdict [("FACTORY", .vstr "mk.outer"),
               ("PARAMS", .vdict [("sub", .vdict [("FACTORY", .vstr "mk.inner")])])])
      "P.S" =
      .error (.improperlyConfigured "Required setting(s): P.S.PARAMS.sub.PARAMS.PORT")
    ∧ processItem factEnv
      (.vdict [("FACTORY", .vstr "mk.outer"),
               ("PARAMS", .vdict [("sub", .vdict [("FACTORY", .vstr "mk.inner")])])])
      "P.S" ≠
      .error (.improperlyConfigured "Required setting(s): P.S.PARAMS.SUB.PARAMS.PORT") := by
  have h : processItem factEnv
      (.vdict [("FACTORY", .vstr "mk.outer"),
               ("PARAMS", .vdict [("sub", .vdict [("FACTORY", .vstr "mk.inner")])])])
      "P.S" =
      .error (.improperlyConfigured "Required setting(s): P.S.PARAMS.sub.PARAMS.PORT") := by
    simp [processItem, processFactory, processParams, callFactory, dictGet]
    rfl
  refine ⟨h, ?_⟩
  rw [h]
  simp

/-- C6 as amended: each `PARAMS` entry is processed with the prefix
extended by `.PARAMS.<key>` with the key verbatim (not case-normalized),
while the keyword-argument name is the lower-cased key. -/
theorem C6_params_key_verbatim (env : FactoryEnv) (pfx : String) :
    (∀ (k : String) (v : PyVal) (rest : Dict),
      processParams env ((k, v) :: rest) pfx =
        (processItem env v (pfx ++ ".PARAMS." ++ k)).bind (fun r =>
          (processParams env rest pfx).map (fun rs => (strLower k, r) :: rs)))
    ∧ (∀ (qs res : Dict), processParams env qs pfx = .ok res →
        res.map Prod.fst = qs.map (fun kv => strLower kv.1)) := by
  refine ⟨?_, processParams_keys env pfx⟩
  intro k v rest
  simp [processParams]

/-- Witness for the amended C6 at the mixed-case key `Host`. -/
theorem C6_params_key_verbatim_witness :
    processParams factEnv [("Host", .vstr "h")] "P.S" =
      (processItem factEnv (.vstr "h") "P.S.PARAMS.Host").bind (fun r =>
        (processParams factEnv [] "P.S").map (fun rs => ("host", r) :: rs))
    ∧ [("host", PyVal.vstr "h")].map Prod.fst =
        [("Host", PyVal.vstr "h")].map (fun kv => strLower kv.1) := by
  constructor
  · have h := (C6_params_key_verbatim factEnv "P.S").1 "Host" (.vstr "h") []
    simpa using h
  · exact (C6_params_key_verbatim factEnv "P.S").2 [("Host", .vstr "h")] [("host", .vstr "h")]
      (by simp [processParams, processItem]; rfl)

/-- C10: tuples are processed exactly like lists and the processed result
is a list of the processed elements in order, both at nested positions and
for a top-level tuple raw value reached through an object-factory
setting. -/
theorem C10_tuple_to_list (env : FactoryEnv) (xs : List PyVal) (pfx : String) :
    processItem env (.vtuple xs) pfx = (processSeq env xs pfx 0).map PyVal.vlist
    ∧ processItem env (.vtuple xs) pfx = processItem env (.vlist xs) pfx
    ∧ (∀ (nm owner : String) (dflt : SettingDefault),
        ObjectFactorySetting.get env { name := nm, default := dflt }
            { name := owner, user_settings := .vdict [(nm, .vtuple xs)] }
          = (processSeq env xs (owner ++ "." ++ nm) 0).map PyVal.vlist) := by
  refine ⟨by simp [processItem], by simp [processItem], ?_⟩
  intro nm owner dflt
  have hbase : Setting.get { name := nm, default := dflt }
      { name := owner, user_settings := .vdict [(nm, .vtuple xs)] } = .ok (.vtuple xs) := by
    simp [Setting.get, pySubscript, dictGet]
  simp [ObjectFactorySetting.get, hbase]
  show processItem env (.vtuple xs) (owner ++ "." ++ nm) =
    Except.map PyVal.vlist (processSeq env xs (owner ++ "." ++ nm) 0)
  simp [processItem]

end SettingsObj
